import Mathlib

/-
Shallow embedding of the address-book data layer (`modul_12.py`):
the Field hierarchy (Name / Phone / Birthday), Record with its phone
operations, and AddressBook with find / iterator / dump / load.

Python exceptions are embedded as explicit error values; mutating
methods are embedded in state-passing style and return the resulting
object state together with the error they raise, if any, so that
"state unchanged after a failed call" is expressible.
-/

set_option autoImplicit false

namespace Modul12

/-- Embedding of the Python exceptions the module raises.  The source
raises bare ValueError / TypeError with a message string; the spec's
error kinds (InvalidValue, DuplicatePhone, NotFound) correspond to the
distinct ValueError messages. -/
inductive PyError where
  | valueError (msg : String)
  | typeError (msg : String)
deriving DecidableEq, Repr

/-- The spec's InvalidValue for a malformed phone. -/
def invalidPhoneErr : PyError := .valueError "Invalid phone number"

/-- The spec's InvalidValue for a malformed birthday. -/
def invalidBirthdayErr : PyError := .valueError "Invalid date format for birthday"

/-- The spec's DuplicatePhone raised by Record.add_phone. -/
def duplicatePhoneErr : PyError := .valueError "Phone number already exists in the record"

/-- The spec's DuplicatePhone raised by Record.edit_phone. -/
def editDuplicatePhoneErr : PyError := .valueError "New phone number already exists in the record"

/-- The spec's NotFound raised by Record.edit_phone / Record.remove_phone. -/
def notFoundErr : PyError := .valueError "Phone number not found in record"

/-- Field.__str__ renders the stored value (the stored value of a Phone
is its string, so display is the identity on it). -/
def fieldStr (value : String) : String := value

namespace Phone

/-- Phone.is_valid_phone: the value is a string of exactly 10 digit
characters (Python str.isdigit on the digit characters occurring here). -/
def is_valid_phone (value : String) : Bool :=
  value.length == 10 && value.data.all Char.isDigit

/-- Phone.__init__ / the validating value setter: stores the value if
valid, otherwise raises ValueError("Invalid phone number").  The state
of a Phone object is just its stored string value. -/
def mk (value : String) : Except PyError String :=
  if is_valid_phone value then .ok value else .error invalidPhoneErr

end Phone

/-- True in leap years (Gregorian rule used by Python datetime). -/
def isLeap (y : Nat) : Bool :=
  (y % 4 == 0 && y % 100 != 0) || y % 400 == 0

/-- Number of days in a month, as validated by Python datetime. -/
def daysInMonth (y m : Nat) : Nat :=
  if m == 2 then (if isLeap y then 29 else 28)
  else if m == 4 || m == 6 || m == 9 || m == 11 then 30
  else 31

/-- Python str.split(sep) for a one-character separator, on character
lists (so "a-b-c" gives ["a","b","c"], with empty pieces kept). -/
def splitOnChar (sep : Char) : List Char → List (List Char)
  | [] => [[]]
  | c :: rest =>
    if c == sep then [] :: splitOnChar sep rest
    else
      match splitOnChar sep rest with
      | [] => [[c]]
      | g :: gs => (c :: g) :: gs

/-- Python int(s) on the pieces split from a birthday string: defined
on strings of decimal digits (as produced by a validated birthday),
None elsewhere. -/
def pyInt? (cs : List Char) : Option Nat :=
  if !cs.isEmpty && cs.all Char.isDigit then
    some (cs.foldl (fun acc c => acc * 10 + (c.toNat - 48)) 0)
  else none

/-- Birthday's validating setter: datetime.strptime(value, '%Y-%m-%d')
must succeed.  CPython's strptime matches %Y against exactly 4 digits,
%m against 1-2 digits valued 1..12, %d against 1-2 digits, and then
builds the date, which rejects out-of-range days and year 0. -/
def validBirthday (s : String) : Bool :=
  match splitOnChar '-' s.data with
  | [y, m, d] =>
    y.length == 4 && y.all Char.isDigit &&
    (m.length == 1 || m.length == 2) && m.all Char.isDigit &&
    (d.length == 1 || d.length == 2) && d.all Char.isDigit &&
    (let yn := (pyInt? y).getD 0
     let mn := (pyInt? m).getD 0
     let dn := (pyInt? d).getD 0
     decide (1 ≤ yn ∧ 1 ≤ mn ∧ mn ≤ 12 ∧ 1 ≤ dn ∧ dn ≤ daysInMonth yn mn))
  | _ => false

/-- Birthday.__init__: stores the value if it parses as %Y-%m-%d,
otherwise raises ValueError("Invalid date format for birthday"). -/
def Birthday.mk (value : String) : Except PyError String :=
  if validBirthday value then .ok value else .error invalidBirthdayErr

/-- A Record's state: its Name value, the values of the Phones in its
phone list (in list order), and the value of its optional Birthday. -/
structure Record where
  name : String
  phones : List String
  birthday : Option String
deriving DecidableEq, Repr

namespace Record

/-- Record.find_phone: the first phone in the list whose value equals
the argument, or None. -/
def find_phone (r : Record) (phone_number : String) : Option String :=
  r.phones.find? (· == phone_number)

/-- Record.add_phone: constructs a Phone (validating), appends it if no
phone with an equal value is present, else raises DuplicatePhone.
Returns the resulting record state and the raised error, if any. -/
def add_phone (r : Record) (phone_number : String) : Record × Option PyError :=
  match Phone.mk phone_number with
  | .error e => (r, some e)
  | .ok v =>
    if r.phones.contains v then (r, some duplicatePhoneErr)
    else ({ r with phones := r.phones ++ [v] }, none)

/-- Replaces the first occurrence of old in the list with nw, keeping
its position (the in-place phone_obj.value assignment of edit_phone). -/
def replaceFirst (l : List String) (old nw : String) : List String :=
  match l with
  | [] => []
  | x :: xs => if x == old then nw :: xs else x :: replaceFirst xs old nw

/-- Record.edit_phone: NotFound if old is absent; otherwise validates
new (InvalidValue on failure); DuplicatePhone if new already present;
otherwise overwrites the found Phone object's value in place. -/
def edit_phone (r : Record) (old_phone new_phone : String) : Record × Option PyError :=
  match r.find_phone old_phone with
  | none => (r, some notFoundErr)
  | some _ =>
    match Phone.mk new_phone with
    | .error e => (r, some e)
    | .ok v =>
      if r.phones.contains v then (r, some editDuplicatePhoneErr)
      else ({ r with phones := replaceFirst r.phones old_phone v }, none)

/-- Record.remove_phone: NotFound if absent, else removes the found
Phone object (the first occurrence of the value). -/
def remove_phone (r : Record) (phone : String) : Record × Option PyError :=
  match r.find_phone phone with
  | none => (r, some notFoundErr)
  | some _ => ({ r with phones := r.phones.erase phone }, none)

end Record

/-- One iteration of the add_phone loop in Record.__init__: a raised
error aborts construction. -/
def addPhoneStep (r : Record) (num : String) : Except PyError Record :=
  match r.add_phone num with
  | (r1, none) => .ok r1
  | (_, some e) => .error e

/-- The birthday part of Record.__init__: Birthday(birthday) if
birthday else None, where a None or falsy (empty string) argument
yields no Birthday and a malformed one raises. -/
def mkBirthdayField : Option String → Except PyError (Option String)
  | none => .ok none
  | some b =>
    if b ≠ "" then
      match Birthday.mk b with
      | .ok v => .ok (some v)
      | .error e => .error e
    else .ok none

/-- Record.__init__: sets the name, an empty phone list, the validated
birthday, then add_phone for each given number; any raised error
aborts construction. -/
def mkRecord (name : String) (phone_numbers : List String)
    (birthday : Option String) : Except PyError Record :=
  match mkBirthdayField birthday with
  | .error e => .error e
  | .ok bday =>
    phone_numbers.foldlM addPhoneStep { name := name, phones := [], birthday := bday }

/-- A calendar date as held by a Python date object (the .date() of the
datetimes built by days_to_birthday; the time components are validated
at construction and then dropped). -/
structure Date where
  year : Nat
  month : Nat
  day : Nat
deriving DecidableEq, Repr

/-- datetime(year, month, day, hour) construction, with CPython's
validation order and messages; on success the .date() part is kept. -/
def mkDatetime (year month day hour : Nat) : Except PyError Date :=
  if year < 1 || 9999 < year then .error (.valueError "year is out of range")
  else if month < 1 || 12 < month then .error (.valueError "month must be in 1..12")
  else if day < 1 || daysInMonth year month < day then
    .error (.valueError "day is out of range for month")
  else if 23 < hour then .error (.valueError "hour must be in 0..23")
  else .ok ⟨year, month, day⟩

/-- Python date comparison: field-lexicographic (year, month, day). -/
def dateLt (a b : Date) : Bool :=
  a.year < b.year ||
  (a.year == b.year && (a.month < b.month ||
    (a.month == b.month && a.day < b.day)))

/-- Days from March-adjusted epoch: proleptic Gregorian ordinal of a
date, as date.toordinal does, so that (d1 - d2).days is the ordinal
difference. -/
def daysBeforeMonth (y m : Nat) : Nat :=
  (List.range (m - 1)).foldl (fun acc i => acc + daysInMonth y (i + 1)) 0

/-- date.toordinal(): day count in the proleptic Gregorian calendar
with 0001-01-01 as day 1. -/
def toOrdinal (d : Date) : Nat :=
  let py := d.year - 1
  py * 365 + py / 4 - py / 100 + py / 400 + daysBeforeMonth d.year d.month + d.day

/-- int(s) on the numeric pieces of a birthday string, raising
ValueError on a non-numeric piece. -/
def pyIntNat (cs : List Char) : Except PyError Nat :=
  match pyInt? cs with
  | some n => .ok n
  | none => .error (.valueError "invalid literal for int")

/-- Record.days_to_birthday: None when no birthday is set; otherwise
the source computes datetime(today.year, *map(int, value.split('-'))),
i.e. it unpacks the stored year-month-day triple into the month, day
and hour arguments after today's year, compares with today, possibly
rebuilds with today.year + 1, and returns the day difference.  A
validated birthday always splits into exactly three pieces; any other
shape would change the datetime arity (embedded as a TypeError). -/
def days_to_birthday (r : Record) (today : Date) : Except PyError (Option Int) :=
  match r.birthday with
  | none => .ok none
  | some bval =>
    match splitOnChar '-' bval.data with
    | [ys, ms, ds] => do
      let bYear ← pyIntNat ys
      let bMonth ← pyIntNat ms
      let bDay ← pyIntNat ds
      let nb ← mkDatetime today.year bYear bMonth bDay
      if dateLt nb today then
        let nb2 ← mkDatetime (today.year + 1) bYear bMonth bDay
        pure (some ((toOrdinal nb2 : Int) - (toOrdinal today : Int)))
      else
        pure (some ((toOrdinal nb : Int) - (toOrdinal today : Int)))
    | _ => .error (.typeError "wrong number of arguments unpacked into datetime")

/-- Python substring membership on character lists: needle occurs
contiguously in hay (an empty needle is in every string). -/
def infixCheck (needle : List Char) : List Char → Bool
  | [] => needle.isEmpty
  | c :: rest => needle.isPrefixOf (c :: rest) || infixCheck needle rest

/-- The Python expression needle in hay on strings. -/
def pyIn (needle hay : String) : Bool := infixCheck needle.data hay.data

/-- Python str.lower(), character by character (the names and queries
involved are plain ASCII). -/
def pyLower (s : String) : String := ⟨s.data.map Char.toLower⟩

/-- An AddressBook's state: the monotonically increasing record_id and
the name-to-Record mapping.  Python dicts preserve insertion order, so
the mapping is embedded as an association list in insertion order with
pairwise distinct keys; the backing file path is handled separately by
the file-content model below. -/
structure AddressBook where
  record_id : Nat
  data : List (String × Record)
deriving DecidableEq, Repr

/-- Python dict assignment d[k] = v: overwrites in place, keeping the
key's position, when k is present; appends otherwise. -/
def setKey (l : List (String × Record)) (k : String) (v : Record) :
    List (String × Record) :=
  if l.any (fun p => p.1 == k) then
    l.map (fun p => if p.1 == k then (k, v) else p)
  else l ++ [(k, v)]

namespace AddressBook

/-- AddressBook.add_record: inserts/overwrites by the record's name
value and increments record_id. -/
def add_record (book : AddressBook) (record : Record) : AddressBook :=
  { book with
    data := setKey book.data record.name record
    record_id := book.record_id + 1 }

/-- AddressBook.delete: removes the exact name key when present. -/
def delete (book : AddressBook) (name : String) : AddressBook :=
  { book with data := book.data.filter (fun p => !(p.1 == name)) }

/-- The find loop body over the ordered record values: for each record,
append it once when the lowercased query is a substring of the
lowercased name, then once more per phone whose value contains the
query. -/
def findList (query : String) : List Record → List Record
  | [] => []
  | record :: rest =>
    ((if pyIn (pyLower query) (pyLower record.name) then [record] else []) ++
     (record.phones.filter (fun p => pyIn query p)).map (fun _ => record)) ++
    findList query rest

/-- AddressBook.find over the dict's values in insertion order. -/
def find (book : AddressBook) (query : String) : List Record :=
  findList query (book.data.map Prod.snd)

/-- The loop in AddressBook.iterator: slices records[i:i+batch_size]
for i in range(0, len(records), batch_size).  Python's range raises
ValueError on step 0; that unreachable case is embedded as no batches. -/
def chunkRecords (batch_size : Nat) (records : List Record) : List (List Record) :=
  if hne : records = [] then []
  else if h : batch_size = 0 then []
  else records.take batch_size :: chunkRecords batch_size (records.drop batch_size)
termination_by records.length
decreasing_by
  simp only [List.length_drop]
  have hpos : 0 < records.length := List.length_pos.mpr hne
  omega

/-- AddressBook.iterator(batch_size): the finite sequence of batches
the generator yields, over a snapshot of the dict's values. -/
def iterator (book : AddressBook) (batch_size : Nat) : List (List Record) :=
  chunkRecords batch_size (book.data.map Prod.snd)

end AddressBook

/-- The persisted file's content: the pickled (record_id, data) pair.
Pickle is an implementation-internal self-inverse encoding, so the file
is modelled by the abstract pair it encodes; none stands for a missing
file. -/
abbrev FileContent := Nat × List (String × Record)

namespace AddressBook

/-- AddressBook.dump: pickles (record_id, data) into the backing file,
overwriting it; the resulting file content. -/
def dump (book : AddressBook) : FileContent :=
  (book.record_id, book.data)

/-- AddressBook.load: unpickles (record_id, data) from the backing
file; a missing file (FileNotFoundError) leaves the state untouched. -/
def load (book : AddressBook) (file : Option FileContent) : AddressBook :=
  match file with
  | some (rid, d) => { book with record_id := rid, data := d }
  | none => book

/-- AddressBook.__init__(file): record_id = 1, empty mapping, then
load() from the backing file. -/
def init (file : Option FileContent) : AddressBook :=
  load { record_id := 1, data := [] } file

end AddressBook

/-- Equality of embedded call results (Except values) is decidable, so
concrete runs of the embedded code can be checked by evaluation. -/
instance {ε α : Type} [DecidableEq ε] [DecidableEq α] : DecidableEq (Except ε α) :=
  fun x y =>
    match x, y with
    | .ok a, .ok b =>
      if h : a = b then .isTrue (by rw [h]) else .isFalse (fun hc => by cases hc; exact h rfl)
    | .error a, .error b =>
      if h : a = b then .isTrue (by rw [h]) else .isFalse (fun hc => by cases hc; exact h rfl)
    | .ok _, .error _ => .isFalse (fun hc => by cases hc)
    | .error _, .ok _ => .isFalse (fun hc => by cases hc)

/-- The record built by the spec's scenario: name "John Doe", phone
"1234567890", birthday "1990-05-15". -/
def johnRecord : Record :=
  { name := "John Doe", phones := ["1234567890"], birthday := some "1990-05-15" }

/-- A fresh AddressBook (no backing file) holding only johnRecord. -/
def johnBook : AddressBook := (AddressBook.init none).add_record johnRecord

/-- A fresh AddressBook holding five records (inserted a, b, c, d, e),
the spec's batching scenario. -/
def book5 : AddressBook :=
  (((((AddressBook.init none).add_record ⟨"a", [], none⟩).add_record
    ⟨"b", [], none⟩).add_record ⟨"c", [], none⟩).add_record
    ⟨"d", [], none⟩).add_record ⟨"e", [], none⟩

/-- How many entries find appends for one source record equal to r:
one when the lowercased query occurs in the lowercased name, plus one
per phone containing the query. -/
def matchWeight (query : String) (r : Record) : Nat :=
  (if pyIn (pyLower query) (pyLower r.name) then 1 else 0) +
  (r.phones.filter (fun p => pyIn query p)).length

section HelperLemmas

/-- A string is a valid phone exactly when it has 10 characters, all
digits. -/
lemma is_valid_phone_iff (s : String) :
    Phone.is_valid_phone s = true ↔
      (s.length = 10 ∧ ∀ c ∈ s.data, c.isDigit = true) := by
  simp [Phone.is_valid_phone, List.all_eq_true]

/-- find_phone misses exactly the numbers absent from the phone list. -/
lemma find_phone_eq_none {r : Record} {n : String} (h : n ∉ r.phones) :
    r.find_phone n = none := by
  rw [Record.find_phone, List.find?_eq_none]
  intro x hx
  simp only [beq_iff_eq]
  intro hxn
  exact h (hxn ▸ hx)

/-- find_phone on a present number returns some element. -/
lemma find_phone_isSome {r : Record} {n : String} (h : n ∈ r.phones) :
    ∃ w, r.find_phone n = some w := by
  cases hf : r.find_phone n with
  | some w => exact ⟨w, rfl⟩
  | none =>
    rw [Record.find_phone, List.find?_eq_none] at hf
    have hn := hf n h
    simp at hn

/-- Multiplicity of a record in the find results over an arbitrary
ordered value list: its multiplicity in the source times its match
weight. -/
lemma count_findList (q : String) (r : Record) (l : List Record) :
    (AddressBook.findList q l).count r = l.count r * matchWeight q r := by
  induction l with
  | nil => simp [AddressBook.findList]
  | cons x xs ih =>
    rw [AddressBook.findList, List.count_append, List.count_append, ih,
      List.count_cons, List.map_const', List.count_replicate]
    by_cases hx : x = r
    · subst hx
      have hbe : (x == x) = true := by simp
      rw [hbe, if_pos rfl]
      by_cases hname : pyIn (pyLower q) (pyLower x.name)
      · rw [if_pos hname]
        simp [matchWeight, hname, Nat.add_mul, Nat.mul_comm]
        omega
      · rw [if_neg hname]
        simp [matchWeight, hname, Nat.add_mul]
        omega
    · have hbe : (x == r) = false := by simp [hx]
      rw [hbe]
      simp only [if_false, List.count_nil, Bool.false_eq_true]
      by_cases hname : pyIn (pyLower q) (pyLower x.name)
      · rw [if_pos hname]
        simp [List.count_singleton, hbe]
      · rw [if_neg hname]
        simp

/-- chunkRecords over the empty snapshot yields no batches. -/
lemma chunkRecords_nil (bs : Nat) : AddressBook.chunkRecords bs [] = [] := by
  rw [AddressBook.chunkRecords]
  simp

/-- Concatenating the batches gives back the snapshot: every record
appears exactly once, in order. -/
lemma chunkRecords_flatten (bs : Nat) (hbs : 0 < bs) (l : List Record) :
    (AddressBook.chunkRecords bs l).flatten = l := by
  rw [AddressBook.chunkRecords]
  by_cases hl : l = []
  · simp [hl]
  · have hbs' : ¬bs = 0 := by omega
    rw [dif_neg hl, dif_neg hbs', List.flatten_cons,
      chunkRecords_flatten bs hbs (l.drop bs), List.take_append_drop]
termination_by l.length
decreasing_by
  simp only [List.length_drop]
  have hpos : 0 < l.length := List.length_pos.mpr hl
  omega

/-- Every batch has at most bs records. -/
lemma chunkRecords_batch_le (bs : Nat) (hbs : 0 < bs) (l : List Record) :
    ∀ b ∈ AddressBook.chunkRecords bs l, b.length ≤ bs := by
  rw [AddressBook.chunkRecords]
  by_cases hl : l = []
  · simp [hl]
  · have hbs' : ¬bs = 0 := by omega
    rw [dif_neg hl, dif_neg hbs']
    intro b hb
    rcases List.mem_cons.mp hb with h1 | h2
    · subst h1
      exact List.length_take_le bs l
    · exact chunkRecords_batch_le bs hbs (l.drop bs) b h2
termination_by l.length
decreasing_by
  simp only [List.length_drop]
  have hpos : 0 < l.length := List.length_pos.mpr hl
  omega

/-- Every batch but the last is full: it has exactly bs records. -/
lemma chunkRecords_dropLast (bs : Nat) (hbs : 0 < bs) (l : List Record) :
    ∀ b ∈ (AddressBook.chunkRecords bs l).dropLast, b.length = bs := by
  rw [AddressBook.chunkRecords]
  by_cases hl : l = []
  · simp [hl]
  · have hbs' : ¬bs = 0 := by omega
    rw [dif_neg hl, dif_neg hbs']
    by_cases hrest : AddressBook.chunkRecords bs (l.drop bs) = []
    · rw [hrest, List.dropLast_single]
      intro b hb
      simp at hb
    · rw [List.dropLast_cons_of_ne_nil hrest]
      intro b hb
      rcases List.mem_cons.mp hb with h1 | h2
      · subst h1
        have hdrop : l.drop bs ≠ [] := by
          intro hd
          exact hrest (by rw [hd, chunkRecords_nil])
        have hlen : bs < l.length := by
          by_contra hge
          push_neg at hge
          refine hdrop (List.eq_nil_of_length_eq_zero ?_)
          rw [List.length_drop]
          omega
        rw [List.length_take]
        omega
      · exact chunkRecords_dropLast bs hbs (l.drop bs) b h2
termination_by l.length
decreasing_by
  simp only [List.length_drop]
  have hpos : 0 < l.length := List.length_pos.mpr hl
  omega

/-- replaceFirst rewrites the entry at the index of the first
occurrence of old, keeping every other position. -/
lemma replaceFirst_set {l : List String} {old nw : String} (h : old ∈ l) :
    ∃ i, i < l.length ∧ l[i]? = some old ∧
      Record.replaceFirst l old nw = l.set i nw := by
  induction l with
  | nil => cases h
  | cons x xs ih =>
    by_cases hx : x = old
    · refine ⟨0, by simp, by simp [hx], ?_⟩
      rw [Record.replaceFirst]
      simp [hx]
    · have hmem : old ∈ xs := by
        rcases List.mem_cons.mp h with h1 | h2
        · exact absurd h1.symm hx
        · exact h2
      obtain ⟨i, hi, hgi, hset⟩ := ih hmem
      refine ⟨i + 1, by simpa using hi, by simpa using hgi, ?_⟩
      rw [Record.replaceFirst]
      have hbe : (x == old) = false := by simp [hx]
      rw [hbe]
      simp [hset]

/-- Under the no-duplicates invariant, replacing the present number old
by the absent number nw removes every occurrence of old and makes nw
findable. -/
lemma find?_replaceFirst_of_nodup {l : List String} {old nw : String}
    (hd : l.Nodup) (hold : old ∈ l) (hnw : nw ∉ l) :
    (Record.replaceFirst l old nw).find? (· == old) = none ∧
    (Record.replaceFirst l old nw).find? (· == nw) = some nw := by
  induction l with
  | nil => cases hold
  | cons x xs ih =>
    rw [List.nodup_cons] at hd
    have hnwx : nw ≠ x := fun he => hnw (he ▸ List.mem_cons_self x xs)
    have hnwxs : nw ∉ xs := fun hm => hnw (List.mem_cons_of_mem x hm)
    by_cases hx : x = old
    · subst hx
      rw [Record.replaceFirst]
      simp only [beq_self_eq_true, if_true]
      constructor
      · rw [List.find?_cons]
        have hne : (nw == x) = false := by simp [hnwx]
        rw [hne, List.find?_eq_none]
        intro y hy
        simp only [beq_iff_eq]
        intro he
        exact hd.1 (he ▸ hy)
      · rw [List.find?_cons]
        simp
    · have hold' : old ∈ xs := by
        rcases List.mem_cons.mp hold with h1 | h2
        · exact absurd h1.symm hx
        · exact h2
      obtain ⟨h1, h2⟩ := ih hd.2 hold' hnwxs
      rw [Record.replaceFirst]
      have hbe : (x == old) = false := by simp [hx]
      have hxnw : ¬x = nw := fun he => hnwx he.symm
      have hbn : (x == nw) = false := by simp [hxnw]
      rw [hbe]
      simp only [Bool.false_eq_true, if_false]
      refine ⟨?_, ?_⟩ <;> rw [List.find?_cons]
      · rw [hbe]
        exact h1
      · rw [hbn]
        exact h2

/-- Everything in the replaced list comes from the original list or is
the replacement value. -/
lemma mem_replaceFirst {l : List String} {old nw x : String}
    (hx : x ∈ Record.replaceFirst l old nw) : x ∈ l ∨ x = nw := by
  induction l with
  | nil => rw [Record.replaceFirst] at hx; cases hx
  | cons y ys ih =>
    rw [Record.replaceFirst] at hx
    by_cases hy : (y == old) = true
    · rw [if_pos hy] at hx
      rcases List.mem_cons.mp hx with h1 | h2
      · exact Or.inr h1
      · exact Or.inl (List.mem_cons_of_mem y h2)
    · rw [if_neg hy] at hx
      rcases List.mem_cons.mp hx with h1 | h2
      · exact Or.inl (h1 ▸ List.mem_cons_self y ys)
      · rcases ih h2 with h3 | h3
        · exact Or.inl (List.mem_cons_of_mem y h3)
        · exact Or.inr h3

/-- replaceFirst keeps the list duplicate-free when the new value was
not already present. -/
lemma nodup_replaceFirst {l : List String} {old nw : String}
    (hd : l.Nodup) (hnw : nw ∉ l) :
    (Record.replaceFirst l old nw).Nodup := by
  induction l with
  | nil => rw [Record.replaceFirst]; exact hd
  | cons x xs ih =>
    rw [List.nodup_cons] at hd
    have hnwxs : nw ∉ xs := fun hm => hnw (List.mem_cons_of_mem x hm)
    rw [Record.replaceFirst]
    by_cases hx : (x == old) = true
    · rw [if_pos hx, List.nodup_cons]
      exact ⟨hnwxs, hd.2⟩
    · rw [if_neg hx, List.nodup_cons]
      refine ⟨fun hm => ?_, ih hd.2 hnwxs⟩
      rcases mem_replaceFirst hm with h1 | h1
      · exact hd.1 h1
      · exact hnw (h1 ▸ List.mem_cons_self x xs)

/-- add_phone keeps the phone list duplicate-free, whether it succeeds
or raises. -/
lemma add_phone_preserves_nodup (r : Record) (n : String)
    (hd : r.phones.Nodup) : ((r.add_phone n).1).phones.Nodup := by
  unfold Record.add_phone Phone.mk
  by_cases hv : Phone.is_valid_phone n
  · simp only [hv, if_true]
    by_cases hc : n ∈ r.phones
    · simp [hc]
      exact hd
    · simp [hc]
      rw [List.nodup_append]
      refine ⟨hd, List.nodup_singleton n, fun x hx hx1 => ?_⟩
      rw [List.mem_singleton] at hx1
      exact hc (hx1 ▸ hx)
  · simp only [hv]
    simp
    exact hd

/-- edit_phone keeps the phone list duplicate-free, whether it succeeds
or raises. -/
lemma edit_phone_preserves_nodup (r : Record) (o n : String)
    (hd : r.phones.Nodup) : ((r.edit_phone o n).1).phones.Nodup := by
  unfold Record.edit_phone Phone.mk
  cases hf : r.find_phone o with
  | none => exact hd
  | some w =>
    by_cases hv : Phone.is_valid_phone n
    · simp only [hv, if_true]
      by_cases hc : n ∈ r.phones
      · simp [hc]
        exact hd
      · simp [hc]
        exact nodup_replaceFirst hd hc
    · simp only [hv]
      simp
      exact hd

/-- remove_phone keeps the phone list duplicate-free, whether it
succeeds or raises. -/
lemma remove_phone_preserves_nodup (r : Record) (n : String)
    (hd : r.phones.Nodup) : ((r.remove_phone n).1).phones.Nodup := by
  unfold Record.remove_phone
  cases hf : r.find_phone n with
  | none => exact hd
  | some w => exact (List.erase_sublist n r.phones).nodup hd

/-- A successful constructor loop step keeps the phone list
duplicate-free. -/
lemma addPhoneStep_nodup {r r' : Record} {num : String}
    (hd : r.phones.Nodup) (h : addPhoneStep r num = .ok r') :
    r'.phones.Nodup := by
  unfold addPhoneStep at h
  cases hap : r.add_phone num with
  | mk r1 err =>
    rw [hap] at h
    cases err with
    | none =>
      cases h
      have := add_phone_preserves_nodup r num hd
      rw [hap] at this
      exact this
    | some e => cases h

/-- The whole constructor loop keeps the phone list duplicate-free. -/
lemma foldlM_addPhoneStep_nodup (nums : List String) :
    ∀ (r : Record), r.phones.Nodup →
      ∀ {r' : Record}, nums.foldlM addPhoneStep r = .ok r' → r'.phones.Nodup := by
  induction nums with
  | nil =>
    intro r hd r' h
    have h' : Except.ok (ε := PyError) r = Except.ok r' := h
    cases h'
    exact hd
  | cons x xs ih =>
    intro r hd r' h
    rw [List.foldlM_cons] at h
    cases hs : addPhoneStep r x with
    | ok r1 =>
      rw [hs] at h
      exact ih r1 (addPhoneStep_nodup hd hs) h
    | error e =>
      rw [hs] at h
      exact Except.noConfusion h

/-- A record the constructor actually returns has a duplicate-free
phone list. -/
lemma mkRecord_nodup {name : String} {pns : List String}
    {bday : Option String} {r : Record}
    (h : mkRecord name pns bday = .ok r) : r.phones.Nodup := by
  unfold mkRecord at h
  cases hbf : mkBirthdayField bday with
  | ok b =>
    rw [hbf] at h
    exact foldlM_addPhoneStep_nodup pns
      { name := name, phones := [], birthday := b } List.nodup_nil h
  | error e =>
    rw [hbf] at h
    exact Except.noConfusion h

end HelperLemmas

/-- C1: the spec says days_to_birthday computes the days from today to
the next occurrence of the birthday's month/day, but the source unpacks
the full year-month-day triple of the stored birthday after today's
year, calling datetime(today.year, birth_year, birth_month, birth_day);
the birth year lands in the month argument, so for the scenario record
(birthday 1990-05-15, today 2024-06-01) the call raises
ValueError("month must be in 1..12") instead of returning a day count.
The no-birthday half of the claim does hold: the result is None. -/
theorem c1_days_to_birthday_raises_on_any_real_birthday :
    mkRecord "John Doe" ["1234567890"] (some "1990-05-15") = .ok johnRecord ∧
    days_to_birthday johnRecord ⟨2024, 6, 1⟩ =
      .error (.valueError "month must be in 1..12") ∧
    days_to_birthday { johnRecord with birthday := none } ⟨2024, 6, 1⟩ = .ok none := by
  refine ⟨by decide, by decide, rfl⟩

/-- C2: dump writes the (record_id, data) pair to the backing file and
a fresh AddressBook constructed over that file loads exactly that pair,
so the round trip reproduces the original mapping (hence equality of
record names and phone contents) and the counter. -/
theorem c2_dump_load_roundtrip (book : AddressBook) :
    (AddressBook.init (some book.dump)).data = book.data ∧
    (AddressBook.init (some book.dump)).record_id = book.record_id :=
  ⟨rfl, rfl⟩

/-- C5: constructing a Phone from s succeeds with stored value s
exactly when s is 10 digit characters, and the display string of the
stored value is s itself; every other string fails with the
InvalidValue error. -/
theorem c5_phone_validation (s : String) :
    (Phone.mk s = .ok s ↔ (s.length = 10 ∧ ∀ c ∈ s.data, c.isDigit = true)) ∧
    fieldStr s = s ∧
    (Phone.mk s = .error invalidPhoneErr ↔
      ¬(s.length = 10 ∧ ∀ c ∈ s.data, c.isDigit = true)) := by
  rw [← is_valid_phone_iff]
  unfold Phone.mk
  cases h : Phone.is_valid_phone s <;> simp [h, fieldStr]

/-- C6: for a valid number n, whatever record state the first
add_phone(n) call leaves (append on success, unchanged on a duplicate
failure), the second add_phone(n) call raises DuplicatePhone and
leaves the state — in particular the phone list length — unchanged. -/
theorem c6_add_phone_twice_duplicate (r : Record) (n : String)
    (h : Phone.is_valid_phone n = true) :
    ((r.add_phone n).1).add_phone n = ((r.add_phone n).1, some duplicatePhoneErr) ∧
    (((r.add_phone n).1).add_phone n).1.phones.length =
      ((r.add_phone n).1).phones.length := by
  have hmain : ((r.add_phone n).1).add_phone n =
      ((r.add_phone n).1, some duplicatePhoneErr) := by
    unfold Record.add_phone Phone.mk
    simp only [h, if_true]
    by_cases hc : n ∈ r.phones
    · simp [hc]
    · simp [hc]
  exact ⟨hmain, by rw [hmain]⟩

/-- Witness for C6 at a concrete record and number. -/
theorem c6_add_phone_twice_duplicate_witness :
    Phone.is_valid_phone "1234567890" = true ∧
    ((Record.add_phone ⟨"A", [], none⟩ "1234567890").1).add_phone "1234567890" =
      ((Record.add_phone ⟨"A", [], none⟩ "1234567890").1, some duplicatePhoneErr) :=
  ⟨by decide,
   (c6_add_phone_twice_duplicate ⟨"A", [], none⟩ "1234567890" (by decide)).1⟩

/-- C7: edit_phone with an absent old number raises NotFound before
touching anything, returning the record state unchanged (name, phones
and birthday included). -/
theorem c7_edit_phone_absent_not_found (r : Record) (old nw : String)
    (h : old ∉ r.phones) :
    r.edit_phone old nw = (r, some notFoundErr) := by
  unfold Record.edit_phone
  rw [find_phone_eq_none h]

/-- Witness for C7 at a concrete record and numbers. -/
theorem c7_edit_phone_absent_not_found_witness :
    "0000000000" ∉ johnRecord.phones ∧
    johnRecord.edit_phone "0000000000" "9999999999" =
      (johnRecord, some notFoundErr) :=
  ⟨by decide, c7_edit_phone_absent_not_found johnRecord "0000000000" "9999999999"
    (by decide)⟩

/-- C10: editing a present phone x to the same value x finds x, then
hits the duplicate check (x is in the list), so the call raises the
edit DuplicatePhone error and the record is unchanged. -/
theorem c10_edit_phone_to_itself_duplicate (r : Record) (x : String)
    (hv : Phone.is_valid_phone x = true) (hx : x ∈ r.phones) :
    r.edit_phone x x = (r, some editDuplicatePhoneErr) := by
  obtain ⟨w, hw⟩ := find_phone_isSome hx
  unfold Record.edit_phone Phone.mk
  rw [hw]
  simp [hv, hx]

/-- Witness for C10 at a concrete record and number. -/
theorem c10_edit_phone_to_itself_duplicate_witness :
    Phone.is_valid_phone "1234567890" = true ∧
    "1234567890" ∈ johnRecord.phones ∧
    johnRecord.edit_phone "1234567890" "1234567890" =
      (johnRecord, some editDuplicatePhoneErr) :=
  ⟨by decide, by decide,
   c10_edit_phone_to_itself_duplicate johnRecord "1234567890" (by decide) (by decide)⟩

/-- C3: for every book and query, a record appears in find's result
with multiplicity (its multiplicity among the values) times (one copy
when the lowercased query is a substring of the lowercased name, plus
one copy per phone containing the query) — so exactly the records with
a name or phone match appear, not deduplicated, with one entry per
matching phone; and in the concrete scenario, the book holding the
"John Doe" record answers find("john") with that record and
find("999") with the empty list. -/
theorem c3_find_matches_and_multiplicity :
    (∀ (book : AddressBook) (query : String) (r : Record),
      (book.find query).count r =
        (book.data.map Prod.snd).count r * matchWeight query r) ∧
    mkRecord "John Doe" ["1234567890"] (some "1990-05-15") = .ok johnRecord ∧
    johnBook.find "john" = [johnRecord] ∧
    johnBook.find "999" = [] := by
  refine ⟨fun book query r => count_findList query r (book.data.map Prod.snd),
    by decide, by decide, by decide⟩

/-- C4: for a positive batch size, the iterator's batches concatenate
back to the value list in insertion order (each record exactly once),
every batch has at most batch_size records, every batch except
possibly the last is full; over the 5-record book with batch size 2
the batch sizes are [2, 2, 1] and the batches cover the records in
order. -/
theorem c4_iterator_batches (book : AddressBook) (batch_size : Nat)
    (h : 0 < batch_size) :
    (book.iterator batch_size).flatten = book.data.map Prod.snd ∧
    (∀ b ∈ book.iterator batch_size, b.length ≤ batch_size) ∧
    (∀ b ∈ (book.iterator batch_size).dropLast, b.length = batch_size) ∧
    (book5.iterator 2).map List.length = [2, 2, 1] ∧
    (book5.iterator 2).flatten = book5.data.map Prod.snd := by
  refine ⟨chunkRecords_flatten _ h _, chunkRecords_batch_le _ h _,
    chunkRecords_dropLast _ h _, ?_, ?_⟩ <;>
  simp [AddressBook.iterator, AddressBook.chunkRecords, book5, AddressBook.init,
    AddressBook.add_record, AddressBook.load, setKey]

/-- Witness for C4 at the concrete 5-record book and batch size 2. -/
theorem c4_iterator_batches_witness :
    0 < 2 ∧
    ((book5.iterator 2).flatten = book5.data.map Prod.snd ∧
      (∀ b ∈ book5.iterator 2, b.length ≤ 2) ∧
      (∀ b ∈ (book5.iterator 2).dropLast, b.length = 2) ∧
      (book5.iterator 2).map List.length = [2, 2, 1] ∧
      (book5.iterator 2).flatten = book5.data.map Prod.snd) :=
  ⟨by decide, c4_iterator_batches book5 2 (by decide)⟩

/-- C8: on a record satisfying the phone-uniqueness invariant, when
old is present and new is a valid number not already present,
edit_phone(old, new) succeeds (raises nothing), rewrites exactly the
position holding old to new (leaving name and birthday alone), and
afterwards find_phone(old) is none while find_phone(new) returns the
Phone with value new. -/
theorem c8_edit_phone_replaces_in_place (r : Record) (old nw : String)
    (hd : r.phones.Nodup) (hold : old ∈ r.phones)
    (hv : Phone.is_valid_phone nw = true) (hnw : nw ∉ r.phones) :
    (r.edit_phone old nw).2 = none ∧
    (∃ i, i < r.phones.length ∧ r.phones[i]? = some old ∧
      (r.edit_phone old nw).1.phones = r.phones.set i nw) ∧
    (r.edit_phone old nw).1.name = r.name ∧
    (r.edit_phone old nw).1.birthday = r.birthday ∧
    (r.edit_phone old nw).1.find_phone old = none ∧
    (r.edit_phone old nw).1.find_phone nw = some nw := by
  obtain ⟨w, hw⟩ := find_phone_isSome hold
  have hcont : r.phones.contains nw = false := by
    cases hc : r.phones.contains nw
    · rfl
    · exact absurd (by simpa using hc) hnw
  have hedit : r.edit_phone old nw =
      ({ r with phones := Record.replaceFirst r.phones old nw }, none) := by
    unfold Record.edit_phone Phone.mk
    rw [hw]
    simp [hv, hcont, hnw]
  rw [hedit]
  obtain ⟨hf1, hf2⟩ := find?_replaceFirst_of_nodup hd hold hnw
  exact ⟨rfl, replaceFirst_set hold, rfl, rfl, hf1, hf2⟩

/-- Witness for C8: the spec's scenario, editing johnRecord's number
"1234567890" to "9999999999". -/
theorem c8_edit_phone_replaces_in_place_witness :
    johnRecord.phones.Nodup ∧
    "1234567890" ∈ johnRecord.phones ∧
    Phone.is_valid_phone "9999999999" = true ∧
    "9999999999" ∉ johnRecord.phones ∧
    ((johnRecord.edit_phone "1234567890" "9999999999").2 = none ∧
      (∃ i, i < johnRecord.phones.length ∧
        johnRecord.phones[i]? = some "1234567890" ∧
        (johnRecord.edit_phone "1234567890" "9999999999").1.phones =
          johnRecord.phones.set i "9999999999") ∧
      (johnRecord.edit_phone "1234567890" "9999999999").1.name = johnRecord.name ∧
      (johnRecord.edit_phone "1234567890" "9999999999").1.birthday =
        johnRecord.birthday ∧
      (johnRecord.edit_phone "1234567890" "9999999999").1.find_phone "1234567890" =
        none ∧
      (johnRecord.edit_phone "1234567890" "9999999999").1.find_phone "9999999999" =
        some "9999999999") :=
  ⟨by decide, by decide, by decide, by decide,
   c8_edit_phone_replaces_in_place johnRecord "1234567890" "9999999999"
     (by decide) (by decide) (by decide) (by decide)⟩

/-- C9: the no-two-equal-phones invariant holds for every record the
constructor returns, and each of add_phone, edit_phone and
remove_phone preserves it on the state it leaves behind, whether the
call succeeds or raises. -/
theorem c9_phone_uniqueness_invariant :
    (∀ (name : String) (pns : List String) (bday : Option String) (r : Record),
      mkRecord name pns bday = .ok r → r.phones.Nodup) ∧
    (∀ (r : Record) (n : String), r.phones.Nodup →
      ((r.add_phone n).1).phones.Nodup) ∧
    (∀ (r : Record) (o n : String), r.phones.Nodup →
      ((r.edit_phone o n).1).phones.Nodup) ∧
    (∀ (r : Record) (n : String), r.phones.Nodup →
      ((r.remove_phone n).1).phones.Nodup) :=
  ⟨fun _ _ _ _ h => mkRecord_nodup h,
   add_phone_preserves_nodup,
   edit_phone_preserves_nodup,
   remove_phone_preserves_nodup⟩

/-- Witness for C9 on concrete records: the constructed scenario
record, and the three operations applied to it. -/
theorem c9_phone_uniqueness_invariant_witness :
    mkRecord "John Doe" ["1234567890"] (some "1990-05-15") = .ok johnRecord ∧
    johnRecord.phones.Nodup ∧
    ((johnRecord.add_phone "1234567890").1).phones.Nodup ∧
    ((johnRecord.edit_phone "1234567890" "9999999999").1).phones.Nodup ∧
    ((johnRecord.remove_phone "1234567890").1).phones.Nodup :=
  ⟨by decide,
   c9_phone_uniqueness_invariant.1 "John Doe" ["1234567890"] (some "1990-05-15")
     johnRecord (by decide),
   c9_phone_uniqueness_invariant.2.1 johnRecord "1234567890" (by decide),
   c9_phone_uniqueness_invariant.2.2.1 johnRecord "1234567890" "9999999999" (by decide),
   c9_phone_uniqueness_invariant.2.2.2 johnRecord "1234567890" (by decide)⟩

end Modul12
